import Mathlib

/-!
Verification of the word-chain bot core (turn engine, karma scoring,
state model) against its natural-language specification.

Words are modelled as lists of characters, numeric Python `int` values as
`ℤ`, Python `float` values as idealized real numbers `ℝ`, and the backing
relational store as explicit function-valued state.  Python slices
`word[:k]` and `word[-k:]` become `List.take k` and
`List.drop (word.length - k)`, which agree with Python for every `k` and
every word length.
-/

set_option autoImplicit false

namespace WordChain

/-- Modelled from the spec: `GameMode` is imported from `consts` in the
source, but the module shipped under `src/consts.py` does not define it.
The spec (section 4.2 and the glossary) fixes it as a closed enum
`Normal | Hard` whose `value` is the token width: 1 for Normal, 2 for
Hard. -/
inductive GameMode
  | normal
  | hard
deriving DecidableEq, Repr

/-- Token width of a game mode (`game_mode.value` in the source). -/
def GameMode.value : GameMode → Nat
  | .normal => 1
  | .hard => 2

/-- Modelled from the spec: the per-language frequency tables
(`FIRST_TOKEN_SCORES`, loaded from JSON files absent from the repository)
and the transliteration function `unidecode` (an external library).  Both
are kept abstract; every theorem below holds for an arbitrary table and
an arbitrary transliteration. -/
structure KarmaEnv where
  tokenScores : GameMode → List Char → ℝ
  uni : List Char → List Char

/-- Embedding of `calculate_decay` from `src/karma_calcs.py` (lines
11-27): `2 * e ^ (-n * drop_rate) - 1` with default drop rate `0.33`. -/
noncomputable def calculate_decay (n : ℝ) (drop_rate : ℝ := 0.33) : ℝ :=
  2 * Real.exp (-n * drop_rate) - 1

/-- Embedding of the inner `score_adaption` of `calculate_base_karma`
in `src/karma_calcs.py` (lines 51-52). -/
noncomputable def score_adaption (score : ℝ) (exponent : ℝ := 0.5)
    (rise : ℝ := 0.025) : ℝ :=
  score ^ exponent + rise

/-- Embedding of `calculate_base_karma` from `src/karma_calcs.py`
(lines 32-65). -/
noncomputable def calculate_base_karma (env : KarmaEnv) (word : List Char)
    (game_mode : GameMode) (last_char_bias : ℝ := 0.7) : ℝ :=
  let first_char := env.uni (word.take game_mode.value)
  let last_char := env.uni (word.drop (word.length - game_mode.value))
  let first_char_score := score_adaption (env.tokenScores game_mode first_char)
  let last_char_score := score_adaption (env.tokenScores game_mode last_char)
  let first_char_karma := (first_char_score - 1) * (-1)
  let last_char_karma := last_char_score - 1
  (if first_char_karma > 0 then first_char_karma else 0) + last_char_karma * last_char_bias

/-- Embedding of `calculate_total_karma` from `src/karma_calcs.py`
(lines 70-95).  `last_words.enum` mirrors `enumerate(last_words)`. -/
noncomputable def calculate_total_karma (env : KarmaEnv) (word : List Char)
    (last_words : List (List Char)) (game_mode : GameMode := .normal) : ℝ :=
  let end_letter := word.drop (word.length - game_mode.value)
  let weighted_words : List (ℝ × List Char) :=
    last_words.enum.map
      (fun p => (2 * ((last_words.length : ℝ) - p.1) / (last_words.length : ℝ), p.2))
  let n : ℝ :=
    ((weighted_words.filter
        (fun p => p.2.drop (p.2.length - game_mode.value) == end_letter)).map Prod.fst).sum
  let decay := calculate_decay n
  let base_karma := calculate_base_karma env word game_mode
  if base_karma > 0 then decay * base_karma else base_karma

/-- Reference karma formula written from the words of spec section 4.2
(steps 1-9), to be compared with the source embedding
`calculate_total_karma`: `adapt(s) = s^0.5 + 0.025`,
`startKarma = max(0, -(adapt(freq(lead)) - 1))`,
`endKarma = (adapt(freq(trail)) - 1) * 0.7`, `base = startKarma + endKarma`,
`n` the weighted count of history words sharing the trailing token with
weight `2*(len-i)/len`, `decay = 2*e^(-0.33*n) - 1`, and the result
`decay*base` when `base > 0` and exactly `base` otherwise. -/
noncomputable def spec_total_karma (env : KarmaEnv) (word : List Char)
    (history : List (List Char)) (game_mode : GameMode) : ℝ :=
  let w := game_mode.value
  let adapt : ℝ → ℝ := fun s => s ^ (0.5 : ℝ) + 0.025
  let lead := env.uni (word.take w)
  let trail := env.uni (word.drop (word.length - w))
  let startKarma : ℝ := max 0 (-(adapt (env.tokenScores game_mode lead) - 1))
  let endKarma : ℝ := (adapt (env.tokenScores game_mode trail) - 1) * 0.7
  let base := startKarma + endKarma
  let len := history.length
  let n : ℝ :=
    (history.enum.map
        (fun p => if p.2.drop (p.2.length - w) = word.drop (word.length - w)
          then 2 * ((len : ℝ) - p.1) / (len : ℝ) else 0)).sum
  let decay : ℝ := 2 * Real.exp (-(0.33) * n) - 1
  if base > 0 then decay * base else base

/-- Witness environment: the uniform default frequency table (score 1.0
for every token, the spec section 6 fallback) with identity
transliteration. -/
def trivialKarmaEnv : KarmaEnv := ⟨fun _ _ => 1, id⟩

/-- Embedding of the pydantic model `GameModeState` from `src/model.py`
(lines 93-99), with the pydantic defaults realized by
`GameModeState.initial` below.  Python `int` fields become `ℤ`. -/
structure GameModeState where
  channel_id : Option ℤ
  current_count : ℤ
  current_word : Option (List Char)
  high_score : ℤ
  used_high_score_emoji : Bool
  last_member_id : Option ℤ
deriving DecidableEq, Repr

/-- The default `GameModeState` (all pydantic defaults). -/
def GameModeState.initial : GameModeState :=
  { channel_id := none, current_count := 0, current_word := none, high_score := 0,
    used_high_score_emoji := false, last_member_id := none }

/-- Embedding of the pydantic model `ServerConfig` from `src/model.py`
(lines 102-114): one `GameModeState` per game mode plus the failed-member
bookkeeping.  Languages are kept as ISO codes. -/
structure ServerConfig where
  server_id : ℤ
  game_state : GameMode → GameModeState
  reliable_role_id : Option ℤ
  failed_role_id : Option ℤ
  failed_member_id : Option ℤ
  correct_inputs_by_failed_member : ℤ
  is_banned : Bool
  languages : List String

/-- Point update of the per-mode state dictionary. -/
def ServerConfig.setGameState (c : ServerConfig) (gm : GameMode) (s : GameModeState) :
    ServerConfig :=
  { c with game_state := fun g => if g = gm then s else c.game_state g }

/-- Embedding of `ServerConfig.fail_chain` from `src/model.py` (lines
116-123): zero the current count, designate the failed member, reset the
redemption counter, clear the high-score emoji flag. -/
def ServerConfig.fail_chain (c : ServerConfig) (game_mode : GameMode) (member_id : ℤ) :
    ServerConfig :=
  let c1 := c.setGameState game_mode
    { c.game_state game_mode with current_count := 0 }
  let c2 := { c1 with failed_member_id := some member_id,
                      correct_inputs_by_failed_member := 0 }
  c2.setGameState game_mode
    { c2.game_state game_mode with used_high_score_emoji := false }

/-- Embedding of `ServerConfig.update_current` from `src/model.py`
(lines 125-137): increment the count, record word and member, raise the
high score to the new count if it exceeds it. -/
def ServerConfig.update_current (c : ServerConfig) (game_mode : GameMode) (member_id : ℤ)
    (current_word : List Char) : ServerConfig :=
  let st := c.game_state game_mode
  let st1 := { st with current_count := st.current_count + 1,
                       current_word := some current_word,
                       last_member_id := some member_id }
  let st2 := { st1 with high_score := max st1.high_score st1.current_count }
  c.setGameState game_mode st2

/-- State effect of `ServerConfig.reaction_emoji` from `src/model.py`
(lines 139-156): the one-shot celebratory-emoji flag is set when the
count sits at the high score and the flag was still clear; the emoji
string itself is irrelevant to the game state. -/
def ServerConfig.reaction_emoji_state (c : ServerConfig) (game_mode : GameMode) :
    ServerConfig :=
  let st := c.game_state game_mode
  if st.current_count = st.high_score ∧ st.used_high_score_emoji = false then
    c.setGameState game_mode { st with used_high_score_emoji := true }
  else c

/-- The lazily-created default config for a server
(`ServerConfig(server_id=server_id)` in `src/main.py` line 95). -/
def ServerConfig.default (server_id : ℤ) : ServerConfig :=
  { server_id := server_id, game_state := fun _ => GameModeState.initial,
    reliable_role_id := none, failed_role_id := none, failed_member_id := none,
    correct_inputs_by_failed_member := 0, is_banned := false, languages := ["en"] }

/-- A row of the `member` table (`MemberModel` in `src/model.py` lines
62-69): primary score, correct and wrong counters, karma. -/
structure MemberRow where
  score : ℤ
  correct : ℤ
  wrong : ℤ
  karma : ℝ

/-- The zero-stats row inserted on first contact
(`src/main.py` lines 283-291). -/
def MemberRow.zero : MemberRow := ⟨0, 0, 0, 0⟩

/-- The backing relational store, one decidable membership function per
table (`src/model.py`): `member`, `used_words` (keyed by server, game
mode and word), `word_cache` (the lookup in `is_word_in_cache` ignores
the language column), `blacklist` and `whitelist`. -/
structure DB where
  members : ℤ → ℤ → Option MemberRow
  used_words : ℤ → GameMode → List Char → Bool
  word_cache : List Char → Bool
  blacklist : ℤ → List Char → Bool
  whitelist : ℤ → List Char → Bool

/-- Modelled from the spec: the constants imported from `consts` by
`src/main.py` and `src/utils.py` that the module shipped under
`src/consts.py` does not define — the legal character set
`POSSIBLE_CHARACTERS`, the global two-letter and N-letter blacklists,
the global three-letter whitelist, the history length (spec: K small,
e.g. 5), and the first-character frequency table used by the karma
functions of `src/utils.py` (a concrete instance is the
`FIRST_CHAR_SCORE` dictionary of `src/consts.py` lines 7-34).  All are
kept abstract so every theorem holds for any instantiation. -/
structure GlobalEnv where
  possible_characters : Char → Bool
  global_blacklist_2 : List Char → Bool
  global_blacklist_n : List Char → Bool
  global_whitelist_3 : List Char → Bool
  first_char_score : Char → ℝ
  history_length : ℕ

/-- Embedding of `MISTAKE_PENALTY` from `src/consts.py` line 37. -/
def MISTAKE_PENALTY : ℝ := 10

/-- Embedding of `calculate_base_karma` from `src/utils.py` (lines
43-71), the single-character variant imported by `src/main.py`;
`word[0]` and `word[-1]` are total here via a junk default, and every
call site guarantees a non-empty word. -/
noncomputable def utils_calculate_base_karma (fcs : Char → ℝ) (word : List Char)
    (last_char_bias : ℝ := 0.7) : ℝ :=
  let first_char_score := score_adaption (fcs (word.headD ' '))
  let last_char_score := score_adaption (fcs (word.getLastD ' '))
  let first_char_karma := (first_char_score - 1) * (-1)
  let last_char_karma := last_char_score - 1
  (if first_char_karma > 0 then first_char_karma else 0) + last_char_karma * last_char_bias

/-- Embedding of `calculate_total_karma` from `src/utils.py` (lines
76-99), the variant `Bot.on_message` applies. -/
noncomputable def utils_calculate_total_karma (fcs : Char → ℝ) (word : List Char)
    (last_words : List (List Char)) : ℝ :=
  let end_letter := word.getLastD ' '
  let weighted_words : List (ℝ × List Char) :=
    last_words.enum.map
      (fun p => (2 * ((last_words.length : ℝ) - p.1) / (last_words.length : ℝ), p.2))
  let n : ℝ :=
    ((weighted_words.filter (fun p => p.2.getLastD ' ' == end_letter)).map Prod.fst).sum
  let decay := calculate_decay n
  let base_karma := utils_calculate_base_karma fcs word
  if base_karma > 0 then decay * base_karma else base_karma

/-- Append to a bounded deque (`deque(maxlen=HISTORY_LENGTH)` in
`src/main.py` line 58): the new element goes to the back and the front
is dropped when the bound is exceeded. -/
def dequeAppend (maxlen : ℕ) (l : List (List Char)) (w : List Char) : List (List Char) :=
  let l2 := l ++ [w]
  l2.drop (l2.length - maxlen)

/-- Embedding of `Bot.is_word_blacklisted` from `src/main.py` (lines
656-702).  The hierarchy is: global two-letter and N-letter blacklists,
then the global three-letter whitelist (absence means blacklisted), and
only if `server_id` and `connection` are both supplied the per-server
blacklist. -/
def is_word_blacklisted (env : GlobalEnv) (word : List Char)
    (server_id : Option ℤ := none) (connection : Option DB := none) : Bool :=
  if env.global_blacklist_2 word || env.global_blacklist_n word then true
  else if word.length == 3 && !env.global_whitelist_3 word then true
  else
    match server_id, connection with
    | some sid, some db => db.blacklist sid word
    | _, _ => false

/-- Embedding of `Bot.is_word_whitelisted` from `src/main.py` (lines
706-733). -/
def is_word_whitelisted (word : List Char) (server_id : ℤ) (db : DB) : Bool :=
  db.whitelist server_id word

/-- Embedding of `Bot.is_word_in_cache` from `src/main.py` (lines
620-642). -/
def is_word_in_cache (word : List Char) (db : DB) : Bool :=
  db.word_cache word

/-- Embedding of `Bot.add_to_cache` from `src/main.py` (lines 646-652):
globally blacklisted words are never inserted into the cache. -/
def add_to_cache (env : GlobalEnv) (word : List Char) (db : DB) : DB :=
  if !(is_word_blacklisted env word) then
    { db with word_cache := fun w => if w = word then true else db.word_cache w }
  else db

/-- Body of a Wiktionary opensearch reply as `Bot.get_query_response`
consumes it: either the body fails to parse as JSON (`response.json()`
raises, landing in the generic `except` clause), or it is the
opensearch pair of the echoed query word (`data[0]`) and the candidate
list (`data[1]`) that the external interface of spec section 6
guarantees. -/
inductive ApiBody
  | invalidJson
  | opensearch (echoed : String) (candidates : List String)

/-- Result of awaiting the future in `Bot.get_query_response`: the
five-second timeout, any other transport failure raised by
`future.result`, or an HTTP response with its status code and body. -/
inductive ApiResponse
  | timeout
  | transportError
  | response (status : ℕ) (body : ApiBody)

/-- API result constants of `src/main.py` lines 45-47. -/
def API_RESPONSE_WORD_EXISTS : ℤ := 1

/-- API result constant of `src/main.py` line 46. -/
def API_RESPONSE_WORD_DOESNT_EXIST : ℤ := 0

/-- API result constant of `src/main.py` line 47. -/
def API_RESPONSE_ERROR : ℤ := -1

/-- Embedding of `Bot.get_query_response` from `src/main.py` (lines
519-562).  An empty candidate list makes `data[1][0]` raise
`IndexError`, which the source maps to "word does not exist"; a
non-JSON body raises in `response.json()` and lands in the generic
`except` clause, yielding the error code. -/
def get_query_response : ApiResponse → ℤ
  | .timeout => API_RESPONSE_ERROR
  | .transportError => API_RESPONSE_ERROR
  | .response status body =>
    if 400 ≤ status then API_RESPONSE_ERROR
    else
      match body with
      | .invalidJson => API_RESPONSE_ERROR
      | .opensearch echoed candidates =>
        match candidates with
        | [] => API_RESPONSE_WORD_DOESNT_EXIST
        | best :: _ =>
          if best.toLower = echoed.toLower then API_RESPONSE_WORD_EXISTS
          else API_RESPONSE_WORD_DOESNT_EXIST

/-- An incoming chat message as `Bot.on_message` sees it. -/
structure Message where
  author_is_self : Bool
  author_id : ℤ
  guild_id : ℤ
  channel_id : ℤ
  content : List Char

/-- The in-memory bot state: the per-server config dictionary
(`self.server_configs`), whether a failed role object is loaded for a
server (`self.server_failed_roles[server_id]` being non-None), the
backing store, and the per-server per-member word histories
(`self._server_histories`). -/
structure BotState where
  server_configs : ℤ → Option ServerConfig
  server_failed_roles : ℤ → Bool
  db : DB
  histories : ℤ → ℤ → List (List Char)

/-- Classification of one processed message. -/
inductive Outcome
  | ignored
  | softRejectLength
  | softRejectBlacklist
  | softRejectRepeat
  | softRejectError
  | mistakeWrongMember
  | mistakeWrongLetter
  | mistakeWordNotExist
  | accepted
deriving DecidableEq, Repr

/-- The three mistake classifications (turn order, continuity,
confirmed-invalid word). -/
def Outcome.isMistake : Outcome → Bool
  | .mistakeWrongMember => true
  | .mistakeWrongLetter => true
  | .mistakeWordNotExist => true
  | _ => false

/-- Result of processing one message: the classification, the state
after the handler returns, and whether an external dictionary query was
started for the word. -/
structure StepResult where
  outcome : Outcome
  state : BotState
  queried : Bool

/-- The idempotent member upsert of `Bot.on_message` (`src/main.py`
lines 269-292): insert a zero-stats row for the author unless one
exists. -/
def upsertMember (st : BotState) (server_id member_id : ℤ) : BotState :=
  if (st.db.members server_id member_id).isNone then
    { st with db := { st.db with members := (fun s m =>
        if s = server_id ∧ m = member_id then some MemberRow.zero
        else st.db.members s m) } }
  else st

/-- Embedding of `Bot.handle_mistake` from `src/main.py` (lines
452-483): designate the author as failed member (when a failed role is
configured, and in `fail_chain` regardless), reset the chain via
`fail_chain`, decrement score, increment wrong, subtract the fixed karma
penalty clamped at zero, and delete every `used_words` row of the
server (the source statement filters on `server_id` only, which covers
both game modes).  Role reconciliation is an external side effect
without further game-state change. -/
def handle_mistake (gm : GameMode) (st : BotState) (server_id member_id : ℤ) : BotState :=
  match st.server_configs server_id with
  | none => st
  | some config =>
    let config1 := if st.server_failed_roles server_id
      then { config with failed_member_id := some member_id } else config
    let config2 := config1.fail_chain gm member_id
    let db1 : DB :=
      { st.db with
        members := fun s m =>
          if s = server_id ∧ m = member_id then
            (st.db.members s m).map (fun r =>
              { r with score := r.score - 1, wrong := r.wrong + 1,
                       karma := max 0 (r.karma - MISTAKE_PENALTY) })
          else st.db.members s m,
        used_words := fun s g w => if s = server_id then false else st.db.used_words s g w }
    { st with
      server_configs := fun sid => if sid = server_id then some config2
        else st.server_configs sid,
      db := db1 }

/-- The accept branch of `Bot.on_message` (`src/main.py` lines 402-448):
update the chain state, burn the one-shot high-score emoji via the
eagerly evaluated `reaction_emoji()` call, apply the karma delta clamped
at zero together with the score and correct increments, record the word
as used for the game mode being played, advance the failed-member
redemption counter (thirty consecutive correct inputs clear the failed
status), and cache the word unless globally blacklisted. -/
noncomputable def accept_turn (env : GlobalEnv) (gm : GameMode) (config : ServerConfig)
    (st : BotState) (server_id author_id : ℤ) (word : List Char) : BotState :=
  let config1 := (config.update_current gm author_id word).reaction_emoji_state gm
  let last_words := st.histories server_id author_id
  let karma := utils_calculate_total_karma env.first_char_score word last_words
  let hist2 := dequeAppend env.history_length last_words word
  let db1 : DB :=
    { st.db with
      members := fun s m =>
        if s = server_id ∧ m = author_id then
          (st.db.members s m).map (fun r =>
            { r with score := r.score + 1, correct := r.correct + 1,
                     karma := max 0 (r.karma + karma) })
        else st.db.members s m,
      used_words := fun s g w =>
        if s = server_id ∧ g = gm ∧ w = word then true else st.db.used_words s g w }
  let config2 :=
    if st.server_failed_roles server_id ∧ config1.failed_member_id = some author_id then
      let c := { config1 with
        correct_inputs_by_failed_member := config1.correct_inputs_by_failed_member + 1 }
      if 30 ≤ c.correct_inputs_by_failed_member then
        { c with failed_member_id := none, correct_inputs_by_failed_member := 0 }
      else c
    else config1
  let db2 := add_to_cache env word db1
  { st with
    server_configs := fun sid => if sid = server_id then some config2
      else st.server_configs sid,
    db := db2,
    histories := fun s m => if s = server_id ∧ m = author_id then hist2
      else st.histories s m }

/-- Whether `Bot.on_message` starts an external API query for the word
(`src/main.py` lines 314-323): exactly when the word is neither
whitelisted nor found in the word cache. -/
def starts_query (word : List Char) (server_id : ℤ) (db : DB) : Bool :=
  !(is_word_whitelisted word server_id db || is_word_in_cache word db)

/-- The checks of `Bot.on_message` past the member upsert (`src/main.py`
lines 294-448), with the local variables of the source (`word`, the
upserted state, the pending future) passed as parameters: blacklist
(unless whitelisted), repetition, turn order, continuity, resolution of
the pending external lookup, then accept. -/
noncomputable def turn_checks (env : GlobalEnv) (single_player : Bool) (gm : GameMode)
    (config : ServerConfig) (st1 : BotState) (guild author : ℤ) (word : List Char)
    (api : ApiResponse) : StepResult :=
  if ¬ is_word_whitelisted word guild st1.db ∧
      is_word_blacklisted env word (some guild) (some st1.db) then
    ⟨.softRejectBlacklist, st1, false⟩
  else if st1.db.used_words guild .normal word ∨ st1.db.used_words guild .hard word then
    ⟨.softRejectRepeat, st1, starts_query word guild st1.db⟩
  else if ¬ single_player ∧ (config.game_state gm).last_member_id = some author then
    ⟨.mistakeWrongMember, handle_mistake gm st1 guild author,
      starts_query word guild st1.db⟩
  else if ((config.game_state gm).current_word.getD []) ≠ [] ∧
      word.headD ' ' ≠ ((config.game_state gm).current_word.getD []).getLastD ' ' then
    ⟨.mistakeWrongLetter, handle_mistake gm st1 guild author,
      starts_query word guild st1.db⟩
  else if starts_query word guild st1.db = true ∧
      get_query_response api = API_RESPONSE_WORD_DOESNT_EXIST then
    ⟨.mistakeWordNotExist, handle_mistake gm st1 guild author,
      starts_query word guild st1.db⟩
  else if starts_query word guild st1.db = true ∧
      get_query_response api = API_RESPONSE_ERROR then
    ⟨.softRejectError, st1, starts_query word guild st1.db⟩
  else
    ⟨.accepted, accept_turn env gm config st1 guild author word,
      starts_query word guild st1.db⟩

/-- Embedding of `Bot.on_message` from `src/main.py` (lines 228-448),
parametric in the game mode being played (the flat config fields of the
source correspond to the per-mode state).  The checking hierarchy is the
one documented at the top of the source method: self-author and
channel guards, legal characters, length, member upsert, then the
checks of `turn_checks`.  `api` is the awaited outcome of the external
lookup that `start_api_query` would launch; the repetition query of the
source filters on `server_id` and `word` only, hence `turn_checks`
checks across both game modes. -/
noncomputable def on_message (env : GlobalEnv) (single_player : Bool) (gm : GameMode)
    (st : BotState) (msg : Message) (api : ApiResponse) : StepResult :=
  if msg.author_is_self then ⟨.ignored, st, false⟩ else
  match st.server_configs msg.guild_id with
  | none => ⟨.ignored, st, false⟩
  | some config =>
    if (config.game_state gm).channel_id ≠ some msg.channel_id then ⟨.ignored, st, false⟩
    else if ¬ (msg.content.map Char.toLower).all env.possible_characters then
      ⟨.ignored, st, false⟩
    else if (msg.content.map Char.toLower).length = 0 then ⟨.ignored, st, false⟩
    else if (msg.content.map Char.toLower).length = 1 then ⟨.softRejectLength, st, false⟩
    else turn_checks env single_player gm config
      (upsertMember st msg.guild_id msg.author_id) msg.guild_id msg.author_id
      (msg.content.map Char.toLower) api

/-- Test instance of the missing global constants: the two-letter word
"xx" is globally blacklisted, "the" is the only whitelisted
three-letter word, and the uniform default frequency score 1.0. -/
def testGlobalEnv : GlobalEnv where
  possible_characters := fun c => ('a' ≤ c && c ≤ 'z') || c == '-'
  global_blacklist_2 := fun w => w == ['x', 'x']
  global_blacklist_n := fun _ => false
  global_whitelist_3 := fun w => w == ['t', 'h', 'e']
  first_char_score := fun _ => 1
  history_length := 5

/-- Empty test database. -/
def testDB : DB :=
  ⟨fun _ _ => none, fun _ _ _ => false, fun _ => false, fun _ _ => false, fun _ _ => false⟩

/-- Test config for server 1: playing in channel 10, current word "ab"
last sent by member 2. -/
def testConfig : ServerConfig :=
  { server_id := 1,
    game_state := fun _ => { GameModeState.initial with
      channel_id := some 10, current_count := 1, current_word := some ['a', 'b'],
      high_score := 1, last_member_id := some 2 },
    reliable_role_id := none, failed_role_id := none, failed_member_id := none,
    correct_inputs_by_failed_member := 0, is_banned := false, languages := ["en"] }

/-- Test bot state hosting only server 1. -/
def testState : BotState :=
  ⟨fun s => if s = 1 then some testConfig else none, fun _ => false, testDB, fun _ _ => []⟩

/-- Test message: member 2 sends "ba" in channel 10 of server 1,
immediately after their own word — a turn-order mistake. -/
def testMsg : Message := ⟨false, 2, 1, 10, ['b', 'a']⟩

/-- Test database in which the word "ba" is already used in server 1. -/
def testDBUsed : DB :=
  { testDB with used_words := fun s _ w => s == 1 && w == ['b', 'a'] }

/-- Test state with "ba" already used and no member rows. -/
def testStateUsed : BotState :=
  { testState with db := testDBUsed }

/-- Every stored member row has non-negative karma. -/
def karmaNonneg (st : BotState) : Prop :=
  ∀ s m r, st.db.members s m = some r → 0 ≤ r.karma

/-- Processing a list of messages in order
(repeated `Bot.on_message` dispatch). -/
noncomputable def runMessages (env : GlobalEnv) (sp : Bool) (gm : GameMode)
    (st : BotState) (ms : List (Message × ApiResponse)) : BotState :=
  ms.foldl (fun s p => (on_message env sp gm s p.1 p.2).state) st

/-- Phase of one state-mutating message handler in the micro-step model
of `Bot.db_connection` (`src/main.py` lines 61-74): each writer acquires
the single global `asyncio.Lock`, begins its transaction and reads the
current count, writes the incremented count and commits, and only then
releases the lock (the `async with` nesting releases the lock strictly
after the transaction block ends). -/
inductive TaskPhase
  | idle
  | locked
  | hasRead (v : ℤ)
  | written
  | done
deriving DecidableEq, Repr

/-- Global state of the micro-step concurrency model: the shared
current count, the lock owner, the phase of each writer task, and the
log of values seen by lock-bypassing read-only queries
(`db_connection(locked=False)`). -/
structure LockSystem where
  count : ℤ
  owner : Option ℕ
  phase : ℕ → TaskPhase
  reads : List ℤ

/-- Interleaving semantics of `n` accepted-turn writers plus arbitrary
read-only queries.  A writer can read and write only while owning the
lock, which it holds from before its transaction begins until after
commit; a read-only query needs no lock at all. -/
inductive LockStep (n : ℕ) : LockSystem → LockSystem → Prop
  | acquire (s : LockSystem) (i : ℕ) (hi : i < n) (hown : s.owner = none)
      (hph : s.phase i = .idle) :
      LockStep n s { s with
        owner := some i,
        phase := (fun j => if j = i then .locked else s.phase j) }
  | read (s : LockSystem) (i : ℕ) (hi : i < n) (hown : s.owner = some i)
      (hph : s.phase i = .locked) :
      LockStep n s { s with
        phase := (fun j => if j = i then .hasRead s.count else s.phase j) }
  | write (s : LockSystem) (i : ℕ) (v : ℤ) (hi : i < n) (hown : s.owner = some i)
      (hph : s.phase i = .hasRead v) :
      LockStep n s { s with
        count := v + 1,
        phase := (fun j => if j = i then .written else s.phase j) }
  | release (s : LockSystem) (i : ℕ) (hi : i < n) (hown : s.owner = some i)
      (hph : s.phase i = .written) :
      LockStep n s { s with
        owner := none,
        phase := (fun j => if j = i then .done else s.phase j) }
  | readQuery (s : LockSystem) :
      LockStep n s { s with reads := s.count :: s.reads }

/-- Initial state: count zero, lock free, no writer started. -/
def LockSystem.init : LockSystem :=
  { count := 0, owner := none, phase := fun _ => .idle, reads := [] }

/-- States reachable by interleaving the writers and readers. -/
def LockReachable (n : ℕ) (s : LockSystem) : Prop :=
  Relation.ReflTransGen (LockStep n) LockSystem.init s

/-- Contribution of a task to the count: one once its write has
happened. -/
def TaskPhase.contrib : TaskPhase → ℤ
  | .written => 1
  | .done => 1
  | _ => 0

/-- Inductive invariant of the locked model: the count equals the
number of writes performed, any pending read observed the
current count, and any task inside its critical section owns the
lock. -/
def LockInv (n : ℕ) (s : LockSystem) : Prop :=
  s.count = ∑ j ∈ Finset.range n, (s.phase j).contrib ∧
  (∀ i v, s.phase i = .hasRead v → v = s.count) ∧
  (∀ i, (s.phase i = .locked ∨ (∃ v, s.phase i = .hasRead v) ∨ s.phase i = .written) →
    s.owner = some i)

/-- A filtered-projection sum equals the indicator sum, connecting the
source phrasing of the history weight `n` with the spec phrasing. -/
lemma sum_filter_trail_eq (xs : List (Nat × List Char)) (g : Nat → ℝ)
    (f : List Char → List Char) (t : List Char) :
    ((((xs.map (fun p => (g p.1, p.2))).filter (fun p => f p.2 == t)).map Prod.fst).sum : ℝ)
      = (xs.map (fun p => if f p.2 = t then g p.1 else 0)).sum := by
  induction xs with
  | nil => simp
  | cons x xs ih =>
    by_cases h : f x.2 = t
    · simp [List.filter_cons, h, ih]
    · simp [List.filter_cons, h, ih]

/-- Clamping at zero is the same as the positive-part conditional used in
the source. -/
lemma max_zero_eq_ite (y : ℝ) : max 0 y = if y > 0 then y else 0 := by
  split_ifs with h
  · exact max_eq_right h.le
  · exact max_eq_left (not_lt.mp h)

/-- The base karma of the source equals the `startKarma + endKarma` shape
of spec section 4.2 steps 4-6. -/
lemma calculate_base_karma_eq (env : KarmaEnv) (word : List Char) (gm : GameMode) :
    calculate_base_karma env word gm
      = max 0 (-(score_adaption (env.tokenScores gm (env.uni (word.take gm.value))) - 1))
        + (score_adaption (env.tokenScores gm
            (env.uni (word.drop (word.length - gm.value)))) - 1) * 0.7 := by
  rw [calculate_base_karma, max_zero_eq_ite]
  have h : (score_adaption (env.tokenScores gm (env.uni (word.take gm.value))) - 1) * (-1)
      = -(score_adaption (env.tokenScores gm (env.uni (word.take gm.value))) - 1) := by ring
  rw [h]

/-- Claim C4: for every word of length at least the token width of the
game mode and every history, `calculate_total_karma` equals the reference
formula of spec section 4.2 (`spec_total_karma`): the base is
`max(0, -(adapt(freq(lead)) - 1)) + (adapt(freq(trail)) - 1) * 0.7` and
the result is `decay * base` exactly when `base > 0`, so non-positive
base karma is never softened by the decay factor. -/
theorem calculate_total_karma_eq_spec (env : KarmaEnv) (word : List Char)
    (history : List (List Char)) (gm : GameMode)
    (h : gm.value ≤ word.length) :
    calculate_total_karma env word history gm = spec_total_karma env word history gm := by
  rw [calculate_total_karma, spec_total_karma]
  rw [calculate_base_karma_eq, calculate_decay]
  rw [sum_filter_trail_eq history.enum
      (fun i => 2 * ((history.length : ℝ) - i) / (history.length : ℝ))
      (fun e => e.drop (e.length - gm.value)) (word.drop (word.length - gm.value))]
  have harg : ∀ m : ℝ, -m * 0.33 = -(0.33) * m := by intro m; ring
  rw [harg]
  simp only [score_adaption]

/-- Witness for claim C4 at the concrete word "ab" with empty history. -/
theorem calculate_total_karma_eq_spec_witness :
    GameMode.normal.value ≤ (['a', 'b'] : List Char).length ∧
    calculate_total_karma trivialKarmaEnv ['a', 'b'] [] .normal
      = spec_total_karma trivialKarmaEnv ['a', 'b'] [] .normal :=
  ⟨by decide, calculate_total_karma_eq_spec trivialKarmaEnv ['a', 'b'] [] .normal (by decide)⟩

/-- Claim C5: for the default drop rate, `calculate_decay n` lies in
(-1, 2] for every n ≥ 0, equals 1 exactly at n = 0, is strictly
decreasing in n, and tends to -1 as n grows. -/
theorem calculate_decay_props :
    (∀ n : ℝ, 0 ≤ n → -1 < calculate_decay n ∧ calculate_decay n ≤ 2) ∧
    (∀ n : ℝ, calculate_decay n = 1 ↔ n = 0) ∧
    StrictAnti (fun n : ℝ => calculate_decay n) ∧
    Filter.Tendsto (fun n : ℝ => calculate_decay n) Filter.atTop (nhds (-1)) := by
  refine ⟨?_, ?_, ?_, ?_⟩
  · intro n hn
    have hpos : 0 < Real.exp (-n * 0.33) := Real.exp_pos _
    have hle : Real.exp (-n * 0.33) ≤ 1 := by
      rw [Real.exp_le_one_iff]
      nlinarith
    constructor
    · rw [calculate_decay]; nlinarith
    · rw [calculate_decay]; nlinarith
  · intro n
    rw [calculate_decay]
    constructor
    · intro hn
      have hexp : Real.exp (-n * 0.33) = 1 := by nlinarith
      rw [← Real.exp_zero, Real.exp_eq_exp] at hexp
      nlinarith
    · intro hn
      subst hn
      simp [Real.exp_zero]
      ring
  · intro a b hab
    have hexp : Real.exp (-b * 0.33) < Real.exp (-a * 0.33) :=
      Real.exp_lt_exp.mpr (by nlinarith)
    simp only [calculate_decay]
    nlinarith
  · have h1 : Filter.Tendsto (fun n : ℝ => -n * 0.33) Filter.atTop Filter.atBot :=
      Filter.Tendsto.atBot_mul_const' (by norm_num) Filter.tendsto_neg_atTop_atBot
    have h2 : Filter.Tendsto (fun n : ℝ => Real.exp (-n * 0.33)) Filter.atTop (nhds 0) :=
      Real.tendsto_exp_atBot.comp h1
    have h3 := (h2.const_mul (2 : ℝ)).sub_const 1
    simpa [calculate_decay] using h3

/-- Witness for claim C5 at n = 2. -/
theorem calculate_decay_props_witness :
    -1 < calculate_decay 2 ∧ calculate_decay 2 ≤ 2 :=
  calculate_decay_props.1 2 zero_le_two

/-- Claim C10: on states where the high score dominates the current count
(and the count is non-negative, as the data model guarantees), both
`update_current` and `fail_chain` preserve that domination, and neither
ever decreases the high score. -/
theorem high_score_invariant (c : ServerConfig) (gm : GameMode) (m : ℤ) (w : List Char)
    (hcc : 0 ≤ (c.game_state gm).current_count)
    (hinv : (c.game_state gm).current_count ≤ (c.game_state gm).high_score) :
    (((c.update_current gm m w).game_state gm).current_count
        ≤ ((c.update_current gm m w).game_state gm).high_score
      ∧ (c.game_state gm).high_score ≤ ((c.update_current gm m w).game_state gm).high_score)
    ∧ (((c.fail_chain gm m).game_state gm).current_count
        ≤ ((c.fail_chain gm m).game_state gm).high_score
      ∧ (c.game_state gm).high_score ≤ ((c.fail_chain gm m).game_state gm).high_score) := by
  unfold ServerConfig.update_current ServerConfig.fail_chain ServerConfig.setGameState
  simp only []
  refine ⟨⟨?_, ?_⟩, ?_, ?_⟩ <;> simp <;> omega

/-- Witness for claim C10 on the default config. -/
theorem high_score_invariant_witness :
    (0 ≤ ((ServerConfig.default 1).game_state .normal).current_count ∧
      ((ServerConfig.default 1).game_state .normal).current_count
        ≤ ((ServerConfig.default 1).game_state .normal).high_score) ∧
    ((((ServerConfig.default 1).fail_chain .normal 7).game_state .normal).current_count
      ≤ (((ServerConfig.default 1).fail_chain .normal 7).game_state .normal).high_score) :=
  ⟨⟨by decide, by decide⟩,
    (high_score_invariant (ServerConfig.default 1) .normal 7 ['a', 'b']
      (by decide) (by decide)).2.1⟩

/-- The member upsert never touches the config dictionary. -/
lemma upsertMember_configs (st : BotState) (s m : ℤ) :
    (upsertMember st s m).server_configs = st.server_configs := by
  unfold upsertMember
  split <;> rfl

/-- The member upsert never touches the failed-role map. -/
lemma upsertMember_roles (st : BotState) (s m : ℤ) :
    (upsertMember st s m).server_failed_roles = st.server_failed_roles := by
  unfold upsertMember
  split <;> rfl

/-- The member upsert never touches the used-words table. -/
lemma upsertMember_used_words (st : BotState) (s m : ℤ) :
    (upsertMember st s m).db.used_words = st.db.used_words := by
  unfold upsertMember
  split <;> rfl

/-- The member upsert never touches the word cache. -/
lemma upsertMember_word_cache (st : BotState) (s m : ℤ) :
    (upsertMember st s m).db.word_cache = st.db.word_cache := by
  unfold upsertMember
  split <;> rfl

/-- The member upsert never touches the blacklist. -/
lemma upsertMember_blacklist (st : BotState) (s m : ℤ) :
    (upsertMember st s m).db.blacklist = st.db.blacklist := by
  unfold upsertMember
  split <;> rfl

/-- The member upsert never touches the whitelist. -/
lemma upsertMember_whitelist (st : BotState) (s m : ℤ) :
    (upsertMember st s m).db.whitelist = st.db.whitelist := by
  unfold upsertMember
  split <;> rfl

/-- The member upsert never touches the histories. -/
lemma upsertMember_histories (st : BotState) (s m : ℤ) :
    (upsertMember st s m).histories = st.histories := by
  unfold upsertMember
  split <;> rfl

/-- Each member row is either untouched by the upsert or was absent and
is now the zero row. -/
lemma upsertMember_members (st : BotState) (s m s2 m2 : ℤ) :
    (upsertMember st s m).db.members s2 m2 = st.db.members s2 m2 ∨
      (st.db.members s2 m2 = none ∧
        (upsertMember st s m).db.members s2 m2 = some MemberRow.zero) := by
  unfold upsertMember
  split
  · rename_i hnone
    by_cases h : s2 = s ∧ m2 = m
    · right
      refine ⟨?_, by simp [h]⟩
      rcases h with ⟨rfl, rfl⟩
      exact Option.isNone_iff_eq_none.mp hnone
    · left
      simp [h]
  · left
    rfl

/-- What `handle_mistake` does to the config and the used-words table of
the server, relative to the config it read. -/
lemma handle_mistake_spec (gm : GameMode) (st : BotState) (sid mid : ℤ)
    (config : ServerConfig) (hc : st.server_configs sid = some config) :
    ∃ config2, (handle_mistake gm st sid mid).server_configs sid = some config2 ∧
      (config2.game_state gm).current_count = 0 ∧
      (config2.game_state gm).used_high_score_emoji = false ∧
      config2.correct_inputs_by_failed_member = 0 ∧
      (config2.game_state gm).current_word = (config.game_state gm).current_word ∧
      (config2.game_state gm).last_member_id = (config.game_state gm).last_member_id ∧
      ∀ g w, (handle_mistake gm st sid mid).db.used_words sid g w = false := by
  unfold handle_mistake
  rw [hc]
  simp only []
  have hgs : (if st.server_failed_roles sid
      then { config with failed_member_id := some mid } else config).game_state
      = config.game_state := by
    split <;> rfl
  refine ⟨(if st.server_failed_roles sid
      then { config with failed_member_id := some mid } else config).fail_chain gm mid,
    by simp, ?_, ?_, ?_, ?_, ?_, ?_⟩ <;>
    simp [ServerConfig.fail_chain, ServerConfig.setGameState, hgs]

/-- Structure of each possible `turn_checks` result: a mistake outcome
leaves the state produced by `handle_mistake`, a repetition soft-reject
leaves exactly the incoming state, and every result state is the
incoming state, the mistake state, or the accepted-turn state. -/
lemma turn_checks_shape (env : GlobalEnv) (sp : Bool) (gm : GameMode)
    (config : ServerConfig) (st1 : BotState) (guild author : ℤ) (word : List Char)
    (api : ApiResponse) :
    ((turn_checks env sp gm config st1 guild author word api).outcome.isMistake = true →
      (turn_checks env sp gm config st1 guild author word api).state
        = handle_mistake gm st1 guild author) ∧
    ((turn_checks env sp gm config st1 guild author word api).outcome = .softRejectRepeat →
      (turn_checks env sp gm config st1 guild author word api).state = st1) ∧
    ((turn_checks env sp gm config st1 guild author word api).state = st1 ∨
     (turn_checks env sp gm config st1 guild author word api).state
        = handle_mistake gm st1 guild author ∨
     (turn_checks env sp gm config st1 guild author word api).state
        = accept_turn env gm config st1 guild author word) := by
  unfold turn_checks
  split
  · exact ⟨fun h => by simp [Outcome.isMistake] at h, fun h => by simp at h, Or.inl rfl⟩
  split
  · exact ⟨fun h => by simp [Outcome.isMistake] at h, fun _ => rfl, Or.inl rfl⟩
  split
  · exact ⟨fun _ => rfl, fun h => by simp at h, Or.inr (Or.inl rfl)⟩
  split
  · exact ⟨fun _ => rfl, fun h => by simp at h, Or.inr (Or.inl rfl)⟩
  split
  · exact ⟨fun _ => rfl, fun h => by simp at h, Or.inr (Or.inl rfl)⟩
  split
  · exact ⟨fun h => by simp [Outcome.isMistake] at h, fun h => by simp at h, Or.inl rfl⟩
  · exact ⟨fun h => by simp [Outcome.isMistake] at h, fun h => by simp at h,
      Or.inr (Or.inr rfl)⟩

/-- Structure of each possible `on_message` result: a mistake outcome
leaves the state produced by `handle_mistake` after the member upsert, a
repetition soft-reject leaves exactly the upserted state, and every
result state is one of the original state, the upserted state, the
mistake state, or the accepted-turn state. -/
lemma on_message_shape (env : GlobalEnv) (sp : Bool) (gm : GameMode) (st : BotState)
    (msg : Message) (api : ApiResponse) :
    ((on_message env sp gm st msg api).outcome.isMistake = true →
      (on_message env sp gm st msg api).state
        = handle_mistake gm (upsertMember st msg.guild_id msg.author_id)
            msg.guild_id msg.author_id) ∧
    ((on_message env sp gm st msg api).outcome = .softRejectRepeat →
      (on_message env sp gm st msg api).state
        = upsertMember st msg.guild_id msg.author_id) ∧
    ((on_message env sp gm st msg api).state = st ∨
     (on_message env sp gm st msg api).state = upsertMember st msg.guild_id msg.author_id ∨
     (on_message env sp gm st msg api).state
        = handle_mistake gm (upsertMember st msg.guild_id msg.author_id)
            msg.guild_id msg.author_id ∨
     ∃ config, st.server_configs msg.guild_id = some config ∧
       (on_message env sp gm st msg api).state
          = accept_turn env gm config (upsertMember st msg.guild_id msg.author_id)
              msg.guild_id msg.author_id (msg.content.map Char.toLower)) := by
  unfold on_message
  split
  · exact ⟨fun h => by simp [Outcome.isMistake] at h, fun h => by simp at h, Or.inl rfl⟩
  split
  · exact ⟨fun h => by simp [Outcome.isMistake] at h, fun h => by simp at h, Or.inl rfl⟩
  rename_i config hc
  split
  · exact ⟨fun h => by simp [Outcome.isMistake] at h, fun h => by simp at h, Or.inl rfl⟩
  split
  · exact ⟨fun h => by simp [Outcome.isMistake] at h, fun h => by simp at h, Or.inl rfl⟩
  split
  · exact ⟨fun h => by simp [Outcome.isMistake] at h, fun h => by simp at h, Or.inl rfl⟩
  split
  · exact ⟨fun h => by simp [Outcome.isMistake] at h, fun h => by simp at h, Or.inl rfl⟩
  · obtain ⟨t1, t2, t3⟩ := turn_checks_shape env sp gm config
      (upsertMember st msg.guild_id msg.author_id) msg.guild_id msg.author_id
      (msg.content.map Char.toLower) api
    refine ⟨t1, t2, ?_⟩
    rcases t3 with h | h | h
    · exact Or.inr (Or.inl h)
    · exact Or.inr (Or.inr (Or.inl h))
    · exact Or.inr (Or.inr (Or.inr ⟨config, hc, h⟩))

/-- Claim C1: whenever the turn engine classifies a message as a Mistake
(turn order, continuity, or confirmed-invalid word), the resulting state
has a zero current count, a cleared high-score emoji flag, a zero
redemption counter, no used-words rows left for the server and game
mode, and the current word and last member id unchanged from before the
mistake. -/
theorem mistake_reset_law (env : GlobalEnv) (sp : Bool) (gm : GameMode) (st : BotState)
    (msg : Message) (api : ApiResponse) (config : ServerConfig)
    (hc : st.server_configs msg.guild_id = some config)
    (hm : (on_message env sp gm st msg api).outcome.isMistake = true) :
    ∃ config2,
      (on_message env sp gm st msg api).state.server_configs msg.guild_id = some config2 ∧
      (config2.game_state gm).current_count = 0 ∧
      (config2.game_state gm).used_high_score_emoji = false ∧
      config2.correct_inputs_by_failed_member = 0 ∧
      (∀ w, (on_message env sp gm st msg api).state.db.used_words msg.guild_id gm w = false) ∧
      (config2.game_state gm).current_word = (config.game_state gm).current_word ∧
      (config2.game_state gm).last_member_id = (config.game_state gm).last_member_id := by
  have hshape := (on_message_shape env sp gm st msg api).1 hm
  rw [hshape]
  have hc2 : (upsertMember st msg.guild_id msg.author_id).server_configs msg.guild_id
      = some config := by
    rw [upsertMember_configs]
    exact hc
  obtain ⟨config2, h1, h2, h3, h4, h5, h6, h7⟩ :=
    handle_mistake_spec gm _ msg.guild_id msg.author_id config hc2
  exact ⟨config2, h1, h2, h3, h4, fun w => h7 gm w, h5, h6⟩

/-- Witness for claim C1: the turn-order mistake of `testMsg` resets the
chain while preserving the current word and last member. -/
theorem mistake_reset_law_witness :
    testState.server_configs 1 = some testConfig ∧
    (on_message testGlobalEnv false .normal testState testMsg .timeout).outcome.isMistake
      = true ∧
    ∃ config2,
      (on_message testGlobalEnv false .normal testState testMsg
          .timeout).state.server_configs 1 = some config2 ∧
      (config2.game_state .normal).current_count = 0 ∧
      (config2.game_state .normal).used_high_score_emoji = false ∧
      config2.correct_inputs_by_failed_member = 0 ∧
      (∀ w, (on_message testGlobalEnv false .normal testState testMsg
          .timeout).state.db.used_words 1 .normal w = false) ∧
      (config2.game_state .normal).current_word = (testConfig.game_state .normal).current_word ∧
      (config2.game_state .normal).last_member_id
        = (testConfig.game_state .normal).last_member_id :=
  by
  have hm0 : (on_message testGlobalEnv false .normal testState testMsg
      .timeout).outcome = Outcome.mistakeWrongMember := rfl
  have hm : (on_message testGlobalEnv false .normal testState testMsg
      .timeout).outcome.isMistake = true := by rw [hm0]; rfl
  exact ⟨rfl, hm,
    mistake_reset_law testGlobalEnv false .normal testState testMsg .timeout testConfig
      rfl hm⟩

/-- The member upsert does not change the whitelist consulted by the
blacklist check. -/
lemma is_word_blacklisted_upsert (env : GlobalEnv) (st : BotState) (s m g : ℤ)
    (w : List Char) :
    is_word_blacklisted env w (some g) (some (upsertMember st s m).db)
      = is_word_blacklisted env w (some g) (some st.db) := by
  unfold is_word_blacklisted
  simp only [upsertMember_blacklist]

/-- Counterexample for claim C2 as stated: resending the already-used
word "ba" from a member with no `member` row yields the repetition
soft-reject, but the handler has already mutated state by then — the
member upsert created a zero-stats row for the author. -/
theorem repetition_mutates_fresh_member :
    (on_message testGlobalEnv false .normal testStateUsed testMsg .timeout).outcome
      = Outcome.softRejectRepeat ∧
    testStateUsed.db.members 1 2 = none ∧
    ((on_message testGlobalEnv false .normal testStateUsed testMsg
        .timeout).state.db.members 1 2).isSome = true :=
  ⟨rfl, rfl, rfl⟩

/-- Claim C2 as amended: resending a word already in `used_words`
(through the channel, character, length and blacklist gates) yields the
repetition soft-reject, and nothing changes — the chain state, used
words, word cache, blacklist, whitelist and histories are untouched —
except that a missing `member` row for the author is created with zero
stats by the idempotent upsert that runs before the repetition check. -/
theorem repetition_law (env : GlobalEnv) (sp : Bool) (gm : GameMode) (st : BotState)
    (msg : Message) (api : ApiResponse) (config : ServerConfig)
    (hc : st.server_configs msg.guild_id = some config)
    (hself : msg.author_is_self = false)
    (hch : (config.game_state gm).channel_id = some msg.channel_id)
    (hchars : (msg.content.map Char.toLower).all env.possible_characters = true)
    (hlen : 2 ≤ (msg.content.map Char.toLower).length)
    (hnotbl : ¬ (¬ is_word_whitelisted (msg.content.map Char.toLower) msg.guild_id st.db
          = true ∧
        is_word_blacklisted env (msg.content.map Char.toLower) (some msg.guild_id)
          (some st.db) = true))
    (hused : st.db.used_words msg.guild_id .normal (msg.content.map Char.toLower) = true ∨
        st.db.used_words msg.guild_id .hard (msg.content.map Char.toLower) = true) :
    (on_message env sp gm st msg api).outcome = Outcome.softRejectRepeat ∧
    (on_message env sp gm st msg api).state.server_configs = st.server_configs ∧
    (on_message env sp gm st msg api).state.db.used_words = st.db.used_words ∧
    (on_message env sp gm st msg api).state.db.word_cache = st.db.word_cache ∧
    (on_message env sp gm st msg api).state.db.blacklist = st.db.blacklist ∧
    (on_message env sp gm st msg api).state.db.whitelist = st.db.whitelist ∧
    (on_message env sp gm st msg api).state.histories = st.histories ∧
    (∀ s m, (on_message env sp gm st msg api).state.db.members s m = st.db.members s m ∨
      (st.db.members s m = none ∧
        (on_message env sp gm st msg api).state.db.members s m = some MemberRow.zero)) := by
  have key : on_message env sp gm st msg api
      = ⟨.softRejectRepeat, upsertMember st msg.guild_id msg.author_id,
          starts_query (msg.content.map Char.toLower) msg.guild_id
            (upsertMember st msg.guild_id msg.author_id).db⟩ := by
    unfold on_message
    rw [if_neg (by simp [hself]), hc]
    simp only []
    rw [if_neg (by simp [hch])]
    rw [if_neg (by simp [hchars])]
    rw [if_neg (by omega)]
    rw [if_neg (by omega)]
    unfold turn_checks
    rw [if_neg (by
      rw [show is_word_whitelisted (msg.content.map Char.toLower) msg.guild_id
            (upsertMember st msg.guild_id msg.author_id).db
          = is_word_whitelisted (msg.content.map Char.toLower) msg.guild_id st.db from by
        unfold is_word_whitelisted
        rw [upsertMember_whitelist]]
      rw [is_word_blacklisted_upsert]
      exact hnotbl)]
    rw [if_pos (by
      rw [upsertMember_used_words]
      exact hused)]
  rw [key]
  refine ⟨rfl, ?_, ?_, ?_, ?_, ?_, ?_, ?_⟩
  · rw [upsertMember_configs]
  · rw [upsertMember_used_words]
  · rw [upsertMember_word_cache]
  · rw [upsertMember_blacklist]
  · rw [upsertMember_whitelist]
  · rw [upsertMember_histories]
  · intro s m
    exact upsertMember_members st msg.guild_id msg.author_id s m

/-- Witness for claim C2 (amended form) at the concrete used word
"ba". -/
theorem repetition_law_witness :
    (testStateUsed.db.used_words 1 .normal (['b', 'a'] : List Char) = true ∨
      testStateUsed.db.used_words 1 .hard (['b', 'a'] : List Char) = true) ∧
    (on_message testGlobalEnv false .normal testStateUsed testMsg .timeout).outcome
      = Outcome.softRejectRepeat :=
  ⟨Or.inl (by decide),
    (repetition_law testGlobalEnv false .normal testStateUsed testMsg .timeout testConfig
      rfl rfl rfl (by decide) (by decide) (by decide) (Or.inl (by decide))).1⟩

/-- Whitelisted words short-circuit the blacklist check and the external
lookup in the post-upsert checks. -/
lemma turn_checks_whitelisted (env : GlobalEnv) (sp : Bool) (gm : GameMode)
    (config : ServerConfig) (st1 : BotState) (guild author : ℤ) (word : List Char)
    (api : ApiResponse) (hwl : st1.db.whitelist guild word = true) :
    (turn_checks env sp gm config st1 guild author word api).outcome
        ≠ Outcome.softRejectBlacklist ∧
    (turn_checks env sp gm config st1 guild author word api).outcome
        ≠ Outcome.softRejectError ∧
    (turn_checks env sp gm config st1 guild author word api).outcome
        ≠ Outcome.mistakeWordNotExist ∧
    (turn_checks env sp gm config st1 guild author word api).queried = false := by
  have hsq : starts_query word guild st1.db = false := by
    simp [starts_query, is_word_whitelisted, hwl]
  unfold turn_checks
  rw [if_neg (by simp [is_word_whitelisted, hwl])]
  split
  · exact ⟨by simp, by simp, by simp, hsq⟩
  split
  · exact ⟨by simp, by simp, by simp, hsq⟩
  split
  · exact ⟨by simp, by simp, by simp, hsq⟩
  rw [if_neg (by simp [hsq]), if_neg (by simp [hsq])]
  exact ⟨by simp, by simp, by simp, hsq⟩

/-- Claim C6: for every word in the whitelist of the server, the
pipeline never classifies the word as blacklisted, never starts an
external dictionary lookup for it, and never rejects it as unknown or
errored — the whitelist dominates both the per-server blacklist and the
global blacklists, whatever they contain. -/
theorem whitelist_dominates (env : GlobalEnv) (sp : Bool) (gm : GameMode) (st : BotState)
    (msg : Message) (api : ApiResponse)
    (hwl : st.db.whitelist msg.guild_id (msg.content.map Char.toLower) = true) :
    (on_message env sp gm st msg api).outcome ≠ Outcome.softRejectBlacklist ∧
    (on_message env sp gm st msg api).outcome ≠ Outcome.softRejectError ∧
    (on_message env sp gm st msg api).outcome ≠ Outcome.mistakeWordNotExist ∧
    (on_message env sp gm st msg api).queried = false := by
  unfold on_message
  split
  · exact ⟨by simp, by simp, by simp, rfl⟩
  split
  · exact ⟨by simp, by simp, by simp, rfl⟩
  rename_i config hc
  split
  · exact ⟨by simp, by simp, by simp, rfl⟩
  split
  · exact ⟨by simp, by simp, by simp, rfl⟩
  split
  · exact ⟨by simp, by simp, by simp, rfl⟩
  split
  · exact ⟨by simp, by simp, by simp, rfl⟩
  · apply turn_checks_whitelisted
    rw [upsertMember_whitelist]
    exact hwl

/-- Witness for claim C6: the whitelisted word "xx" of server 1 is
globally blacklisted in `testGlobalEnv`, yet never classified as
blacklisted and never queried. -/
theorem whitelist_dominates_witness :
    { testState with db := { testDB with
        whitelist := fun s w => s == 1 && w == ['x', 'x'] } }.db.whitelist 1
      (['x', 'x'] : List Char) = true ∧
    testGlobalEnv.global_blacklist_2 (['x', 'x'] : List Char) = true ∧
    ((on_message testGlobalEnv false .normal
        { testState with db := { testDB with
            whitelist := fun s w => s == 1 && w == ['x', 'x'] } }
        ⟨false, 3, 1, 10, ['x', 'x']⟩ .timeout).outcome ≠ Outcome.softRejectBlacklist ∧
      (on_message testGlobalEnv false .normal
        { testState with db := { testDB with
            whitelist := fun s w => s == 1 && w == ['x', 'x'] } }
        ⟨false, 3, 1, 10, ['x', 'x']⟩ .timeout).queried = false) := by
  refine ⟨by decide, by decide, ?_, ?_⟩
  · exact (whitelist_dominates testGlobalEnv false .normal
      { testState with db := { testDB with
          whitelist := fun s w => s == 1 && w == ['x', 'x'] } }
      ⟨false, 3, 1, 10, ['x', 'x']⟩ .timeout (by decide)).1
  · exact (whitelist_dominates testGlobalEnv false .normal
      { testState with db := { testDB with
          whitelist := fun s w => s == 1 && w == ['x', 'x'] } }
      ⟨false, 3, 1, 10, ['x', 'x']⟩ .timeout (by decide)).2.2.2

/-- The member upsert preserves the karma floor: the inserted row has
karma zero. -/
lemma karmaNonneg_upsert (st : BotState) (s m : ℤ) (h : karmaNonneg st) :
    karmaNonneg (upsertMember st s m) := by
  intro s2 m2 r hr
  rcases upsertMember_members st s m s2 m2 with he | ⟨hn, he⟩
  · rw [he] at hr
    exact h s2 m2 r hr
  · rw [he] at hr
    injection hr with hr
    rw [← hr]
    exact le_refl 0

/-- The mistake penalty is clamped at zero, preserving the karma
floor. -/
lemma karmaNonneg_handle_mistake (gm : GameMode) (st : BotState) (sid mid : ℤ)
    (h : karmaNonneg st) : karmaNonneg (handle_mistake gm st sid mid) := by
  intro s m r hr
  unfold handle_mistake at hr
  rcases hcs : st.server_configs sid with _ | config <;> rw [hcs] at hr
  · exact h s m r hr
  · simp only [] at hr
    by_cases hsm : s = sid ∧ m = mid
    · rw [if_pos hsm] at hr
      rcases Option.map_eq_some'.mp hr with ⟨r0, _, hf⟩
      rw [← hf]
      exact le_max_left 0 _
    · rw [if_neg hsm] at hr
      exact h s m r hr

/-- The accepted-turn karma update is clamped at zero, preserving the
karma floor. -/
lemma karmaNonneg_accept (env : GlobalEnv) (gm : GameMode) (config : ServerConfig)
    (st : BotState) (sid mid : ℤ) (w : List Char) (h : karmaNonneg st) :
    karmaNonneg (accept_turn env gm config st sid mid w) := by
  intro s m r hr
  unfold accept_turn at hr
  simp only [] at hr
  have hcache : ∀ (d : DB), (add_to_cache env w d).members = d.members := by
    intro d
    unfold add_to_cache
    split <;> rfl
  rw [hcache] at hr
  dsimp only [] at hr
  by_cases hsm : s = sid ∧ m = mid
  · rw [if_pos hsm] at hr
    rcases Option.map_eq_some'.mp hr with ⟨r0, _, hf⟩
    rw [← hf]
    exact le_max_left 0 _
  · rw [if_neg hsm] at hr
    exact h s m r hr

/-- One processed message preserves the karma floor. -/
lemma karmaNonneg_step (env : GlobalEnv) (sp : Bool) (gm : GameMode) (st : BotState)
    (msg : Message) (api : ApiResponse) (h : karmaNonneg st) :
    karmaNonneg (on_message env sp gm st msg api).state := by
  rcases (on_message_shape env sp gm st msg api).2.2 with he | he | he | ⟨config, _, he⟩ <;>
    rw [he]
  · exact h
  · exact karmaNonneg_upsert st _ _ h
  · exact karmaNonneg_handle_mistake gm _ _ _ (karmaNonneg_upsert st _ _ h)
  · exact karmaNonneg_accept env gm config _ _ _ _ (karmaNonneg_upsert st _ _ h)

/-- Claim C3: along every finite sequence of processed messages —
accepted turns updating karma to `max(0, karma + delta)` and mistakes
updating it to `max(0, karma - MISTAKE_PENALTY)` — every member whose
karma starts non-negative (in particular every new member, created at
zero) keeps `karma ≥ 0` after every turn. -/
theorem karma_floor (env : GlobalEnv) (sp : Bool) (gm : GameMode)
    (ms : List (Message × ApiResponse)) (st : BotState) (h : karmaNonneg st) :
    karmaNonneg (runMessages env sp gm st ms) := by
  induction ms generalizing st with
  | nil => exact h
  | cons p ms ih =>
    exact ih _ (karmaNonneg_step env sp gm st p.1 p.2 h)

/-- Witness for claim C3: a one-message run from the empty-members test
state. -/
theorem karma_floor_witness :
    karmaNonneg testState ∧
    karmaNonneg (runMessages testGlobalEnv false .normal testState
      [(testMsg, ApiResponse.timeout)]) := by
  have hinit : karmaNonneg testState := by
    intro s m r hr
    simp [testState, testDB] at hr
  exact ⟨hinit, karma_floor testGlobalEnv false .normal [(testMsg, ApiResponse.timeout)]
    testState hinit⟩

/-- Claim C7: `is_word_blacklisted` accepts every word of the global
two-letter or N-letter blacklist and every three-letter word missing
from the global three-letter whitelist, for any server arguments; when
all global checks pass and both `server_id` and `connection` are
supplied it returns exactly the per-server blacklist membership; when
either is omitted the global checks alone decide the result. -/
theorem is_word_blacklisted_spec (env : GlobalEnv) (word : List Char) :
    (∀ (sid : Option ℤ) (conn : Option DB),
        (env.global_blacklist_2 word || env.global_blacklist_n word) = true →
        is_word_blacklisted env word sid conn = true) ∧
    (∀ (sid : Option ℤ) (conn : Option DB),
        word.length = 3 → env.global_whitelist_3 word = false →
        is_word_blacklisted env word sid conn = true) ∧
    (∀ (db : DB) (sid : ℤ),
        env.global_blacklist_2 word = false → env.global_blacklist_n word = false →
        (word.length == 3 && !env.global_whitelist_3 word) = false →
        is_word_blacklisted env word (some sid) (some db) = db.blacklist sid word) ∧
    (∀ (sid : Option ℤ) (conn : Option DB), sid = none ∨ conn = none →
        is_word_blacklisted env word sid conn
          = (env.global_blacklist_2 word || env.global_blacklist_n word ||
              (word.length == 3 && !env.global_whitelist_3 word))) := by
  refine ⟨?_, ?_, ?_, ?_⟩
  · intro sid conn h
    simp [is_word_blacklisted, h]
  · intro sid conn h3 hw
    by_cases hg : (env.global_blacklist_2 word || env.global_blacklist_n word) = true
    · simp [is_word_blacklisted, hg]
    · simp only [is_word_blacklisted]
      rw [if_neg (by simpa using hg), if_pos]
      simp [h3, hw]
  · intro db sid h2 hn hww
    simp [is_word_blacklisted, h2, hn, hww]
  · intro sid conn h
    by_cases hg : (env.global_blacklist_2 word || env.global_blacklist_n word) = true
    · simp [is_word_blacklisted, hg]
    · by_cases h3 : (word.length == 3 && !env.global_whitelist_3 word) = true
      · simp [is_word_blacklisted, hg, h3]
      · have hb : ∀ a b : ℕ, (a == b) = decide (a = b) := by
          intro a b
          by_cases hab : a = b <;> simp [hab]
        rcases h with rfl | rfl
        · cases conn <;> simp_all [is_word_blacklisted, hb]
        · cases sid <;> simp_all [is_word_blacklisted, hb]

/-- Witness for claim C7: a concrete server blacklist decides the word
"apple" once the global checks pass. -/
theorem is_word_blacklisted_spec_witness :
    testGlobalEnv.global_blacklist_2 (['a', 'p', 'p', 'l', 'e'] : List Char) = false ∧
    is_word_blacklisted testGlobalEnv ['a', 'p', 'p', 'l', 'e'] (some 1)
      (some ⟨fun _ _ => none, fun _ _ _ => false, fun _ => false,
        fun s w => s == 1 && w == ['a', 'p', 'p', 'l', 'e'], fun _ _ => false⟩)
      = true :=
  ⟨by decide,
    by
      rw [(is_word_blacklisted_spec testGlobalEnv ['a', 'p', 'p', 'l', 'e']).2.2.1
        ⟨fun _ _ => none, fun _ _ _ => false, fun _ => false,
          fun s w => s == 1 && w == ['a', 'p', 'p', 'l', 'e'], fun _ _ => false⟩ 1
        (by decide) (by decide) (by decide)]
      decide⟩

/-- Claim C8: `get_query_response` is total with exactly the three
outcome codes; it reports that the word exists precisely for a response
whose status is below 400 and whose first candidate case-insensitively
equals the word echoed in the reply (the query word of the opensearch
interface); an empty candidate list yields the does-not-exist code; and
a timeout, an error status, a non-JSON body, or any other transport
failure yields the error code. -/
theorem get_query_response_spec :
    (∀ r, get_query_response r = API_RESPONSE_WORD_EXISTS ∨
          get_query_response r = API_RESPONSE_WORD_DOESNT_EXIST ∨
          get_query_response r = API_RESPONSE_ERROR) ∧
    (∀ r, get_query_response r = API_RESPONSE_WORD_EXISTS ↔
        ∃ status echoed best rest,
          r = ApiResponse.response status (ApiBody.opensearch echoed (best :: rest)) ∧
          status < 400 ∧ best.toLower = echoed.toLower) ∧
    (∀ (status : ℕ) (echoed : String), status < 400 →
        get_query_response (.response status (.opensearch echoed []))
          = API_RESPONSE_WORD_DOESNT_EXIST) ∧
    (get_query_response .timeout = API_RESPONSE_ERROR) ∧
    (∀ (status : ℕ) (body : ApiBody), 400 ≤ status →
        get_query_response (.response status body) = API_RESPONSE_ERROR) ∧
    (∀ status : ℕ, get_query_response (.response status .invalidJson)
          = API_RESPONSE_ERROR) ∧
    (get_query_response .transportError = API_RESPONSE_ERROR) := by
  refine ⟨?_, ?_, ?_, rfl, ?_, ?_, rfl⟩
  · intro r
    rcases r with _ | _ | ⟨status, _ | ⟨echoed, _ | ⟨best, rest⟩⟩⟩
    · right; right; rfl
    · right; right; rfl
    · simp only [get_query_response]
      split
      · right; right; rfl
      · right; right; rfl
    · simp only [get_query_response]
      split
      · right; right; rfl
      · right; left; rfl
    · simp only [get_query_response]
      split
      · right; right; rfl
      · split
        · left; rfl
        · right; left; rfl
  · intro r
    constructor
    · intro h
      rcases r with _ | _ | ⟨status, _ | ⟨echoed, _ | ⟨best, rest⟩⟩⟩
      · exact absurd h (by decide)
      · exact absurd h (by decide)
      · simp only [get_query_response] at h
        split at h <;> exact absurd h (by decide)
      · simp only [get_query_response] at h
        split at h <;> exact absurd h (by decide)
      · simp only [get_query_response] at h
        by_cases hs : 400 ≤ status
        · rw [if_pos hs] at h
          exact absurd h (by decide)
        · rw [if_neg hs] at h
          by_cases he : best.toLower = echoed.toLower
          · exact ⟨status, echoed, best, rest, rfl, by omega, he⟩
          · rw [if_neg he] at h
            exact absurd h (by decide)
    · rintro ⟨status, echoed, best, rest, rfl, hlt, heq⟩
      simp only [get_query_response]
      rw [if_neg (by omega), if_pos heq]
  · intro status echoed h
    simp only [get_query_response]
    rw [if_neg (by omega)]
  · intro status body h
    simp only [get_query_response]
    rw [if_pos h]
  · intro status
    simp only [get_query_response]
    split <;> rfl

/-- Witness for claim C8: a 200 response with an empty candidate list is
classified as word-does-not-exist. -/
theorem get_query_response_spec_witness :
    get_query_response (.response 200 (.opensearch "apple" []))
      = API_RESPONSE_WORD_DOESNT_EXIST :=
  get_query_response_spec.2.2.1 200 "apple" (by decide)

/-- A pointwise phase update changes the contribution sum only at the
updated index. -/
lemma contrib_sum_update (n : ℕ) (ph : ℕ → TaskPhase) (i : ℕ) (hi : i < n)
    (x : TaskPhase) :
    ∑ j ∈ Finset.range n, (TaskPhase.contrib (if j = i then x else ph j))
      = ∑ j ∈ Finset.range n, (ph j).contrib - (ph i).contrib + x.contrib := by
  have hmem : i ∈ Finset.range n := Finset.mem_range.mpr hi
  rw [← Finset.sum_erase_add _ _ hmem, ← Finset.sum_erase_add _ (fun j => (ph j).contrib) hmem]
  rw [if_pos rfl]
  rw [Finset.sum_congr rfl (fun j hj => by rw [if_neg (Finset.ne_of_mem_erase hj)])]
  ring

/-- The invariant is preserved by every step. -/
lemma lockInv_step (n : ℕ) (s s2 : LockSystem) (hstep : LockStep n s s2)
    (hinv : LockInv n s) : LockInv n s2 := by
  obtain ⟨hcount, hread, hown⟩ := hinv
  cases hstep with
  | acquire i hi ho hp =>
    refine ⟨?_, ?_, ?_⟩
    · rw [hcount, contrib_sum_update n s.phase i hi]
      rw [hp]
      simp [TaskPhase.contrib]
    · intro i2 v hv
      dsimp only [] at hv
      by_cases h2 : i2 = i
      · rw [if_pos h2] at hv
        exact absurd hv (by simp)
      · rw [if_neg h2] at hv
        exact hread i2 v hv
    · intro i2 h2
      dsimp only [] at h2 ⊢
      by_cases he : i2 = i
      · rw [he]
      · rw [if_neg he] at h2
        have := hown i2 h2
        rw [ho] at this
        exact absurd this (by simp)
  | read i hi ho hp =>
    refine ⟨?_, ?_, ?_⟩
    · rw [hcount, contrib_sum_update n s.phase i hi]
      rw [hp]
      simp [TaskPhase.contrib]
    · intro i2 v hv
      dsimp only [] at hv
      by_cases h2 : i2 = i
      · rw [if_pos h2] at hv
        injection hv with hv
        rw [← hv]
      · rw [if_neg h2] at hv
        have := hown i2 (Or.inr (Or.inl ⟨v, hv⟩))
        rw [ho] at this
        injection this with this
        exact absurd this.symm h2
    · intro i2 h2
      dsimp only [] at h2 ⊢
      by_cases he : i2 = i
      · rw [ho]
        rw [he]
      · rw [if_neg he] at h2
        exact hown i2 h2
  | write i v hi ho hp =>
    have hv : v = s.count := hread i v hp
    refine ⟨?_, ?_, ?_⟩
    · dsimp only []
      rw [contrib_sum_update n s.phase i hi, hp, hv, hcount]
      simp [TaskPhase.contrib]
    · intro i2 v2 hv2
      dsimp only [] at hv2
      by_cases h2 : i2 = i
      · rw [if_pos h2] at hv2
        exact absurd hv2 (by simp)
      · rw [if_neg h2] at hv2
        have := hown i2 (Or.inr (Or.inl ⟨v2, hv2⟩))
        rw [ho] at this
        injection this with this
        exact absurd this.symm h2
    · intro i2 h2
      dsimp only [] at h2 ⊢
      by_cases he : i2 = i
      · rw [ho]
        rw [he]
      · rw [if_neg he] at h2
        exact hown i2 h2
  | release i hi ho hp =>
    refine ⟨?_, ?_, ?_⟩
    · rw [hcount, contrib_sum_update n s.phase i hi]
      rw [hp]
      simp [TaskPhase.contrib]
    · intro i2 v hv
      dsimp only [] at hv
      by_cases h2 : i2 = i
      · rw [if_pos h2] at hv
        exact absurd hv (by simp)
      · rw [if_neg h2] at hv
        exact hread i2 v hv
    · intro i2 h2
      dsimp only [] at h2 ⊢
      by_cases he : i2 = i
      · rw [he] at h2
        rw [if_pos rfl] at h2
        rcases h2 with h2 | ⟨v, h2⟩ | h2 <;> exact absurd h2 (by simp)
      · rw [if_neg he] at h2
        have := hown i2 h2
        rw [ho] at this
        injection this with this
        exact absurd this.symm he
  | readQuery =>
    exact ⟨hcount, hread, hown⟩

/-- The invariant holds in every reachable state. -/
lemma lockInv_reachable (n : ℕ) (s : LockSystem) (h : LockReachable n s) :
    LockInv n s := by
  induction h with
  | refl =>
    refine ⟨by simp [LockSystem.init, TaskPhase.contrib], ?_, ?_⟩
    · intro i v hv
      exact absurd hv (by simp [LockSystem.init])
    · intro i hi
      rcases hi with hi | ⟨v, hi⟩ | hi <;>
        exact absurd hi (by simp [LockSystem.init])
  | tail hstep hlast ih =>
    exact lockInv_step n _ _ hlast ih

/-- Claim C9: in the micro-step model where every state-mutating
handler holds the single global lock from before its
read-modify-write transaction until after commit, every complete
interleaving of `n` accepted turns ends with the count equal to exactly
`n` — no increment is lost or duplicated — while read-only queries
run at any time without taking the lock. -/
theorem lock_serializes_count (n : ℕ) (s : LockSystem) (h : LockReachable n s)
    (hdone : ∀ i, i < n → s.phase i = .done) :
    s.count = n ∧ ∀ s2 : LockSystem, LockStep n s2 { s2 with reads := s2.count :: s2.reads } := by
  obtain ⟨hcount, -, -⟩ := lockInv_reachable n s h
  constructor
  · rw [hcount]
    rw [Finset.sum_congr rfl (fun j hj => by
      rw [hdone j (Finset.mem_range.mp hj)])]
    simp [TaskPhase.contrib]
  · intro s2
    exact LockStep.readQuery s2

/-- Witness for claim C9: a complete two-writer schedule, with a
read-only query interleaved between the two transactions, ends with
count 2. -/
theorem lock_serializes_count_witness :
    ∃ s : LockSystem, LockReachable 2 s ∧ (∀ i, i < 2 → s.phase i = .done) ∧
      s.count = 2 := by
  have h0 : LockReachable 2 LockSystem.init := Relation.ReflTransGen.refl
  have h1 := Relation.ReflTransGen.tail h0
    (LockStep.acquire LockSystem.init 0 (by decide) rfl rfl)
  have h2 := Relation.ReflTransGen.tail h1 (LockStep.read _ 0 (by decide) rfl rfl)
  have h3 := Relation.ReflTransGen.tail h2 (LockStep.write _ 0 0 (by decide) rfl rfl)
  have h4 := Relation.ReflTransGen.tail h3 (LockStep.release _ 0 (by decide) rfl rfl)
  have h5 := Relation.ReflTransGen.tail h4 (LockStep.readQuery _)
  have h6 := Relation.ReflTransGen.tail h5 (LockStep.acquire _ 1 (by decide) rfl rfl)
  have h7 := Relation.ReflTransGen.tail h6 (LockStep.read _ 1 (by decide) rfl rfl)
  have h8 := Relation.ReflTransGen.tail h7 (LockStep.write _ 1 1 (by decide) rfl rfl)
  have h9 := Relation.ReflTransGen.tail h8 (LockStep.release _ 1 (by decide) rfl rfl)
  refine ⟨_, h9, ?_, ?_⟩
  · intro i hi
    interval_cases i <;> rfl
  · exact (lock_serializes_count 2 _ h9 (by intro i hi; interval_cases i <;> rfl)).1

end WordChain
